import Mathlib

/-!
Shallow embedding of `src/tasks/meta_optimizer.py` (classes
`MetaOptimizerExplicit` and `MetaOptimizerImplicit`).

Tensors are modelled along their `samples` dimension as Lean lists (a
`(samples, tasks)` loss tensor becomes a list of per-sample task rows); a
batch (python `dict[str, Tensor]`) is an association list from channel
name to the list of per-sample entries.  External collaborators — the
context aggregator, the predictor, `random.randint`, `torch.randperm`,
`utils.torch_pca` and the logging backend — are oracle parameters.
Python exceptions are modelled with `Except String`.
-/

namespace ICL

/-- A batch or context dictionary: channel name to per-sample entries
(python `dict[str, Tensor]`, each tensor viewed along the samples dimension). -/
abbrev Chan (α : Type) := List (String × List α)

/-- Apply the same samples-dimension operation to every channel, as the
source's dict comprehensions (`{name: f(x[name]) for name in x}`) do. -/
def chanMap (f : List α → List β) (x : Chan α) : Chan β :=
  x.map (fun p => (p.1, f p.2))

/-- Python dict lookup `x[k]`; `none` models a raised `KeyError`. -/
def lookupChan (x : Chan α) (k : String) : Option (List α) :=
  match x with
  | [] => none
  | p :: ps => if p.1 = k then some p.2 else lookupChan ps k

/-- `len(x[list(x.keys())[0]])`: the samples-dimension length of the first
channel of the batch (source line 76). -/
def samplesLen (x : Chan α) : Nat :=
  match x with
  | [] => 0
  | p :: _ => p.2.length

/-- Source lines 72-78: `train_indices = [random.randint(0, i) for i in
range(min_train_samples - 1, S - 1)]` where `S` is the samples length of the
first channel.  `random.randint` is an oracle parameter; theorems assume only
its documented contract `randint 0 i ∈ [0, i]`.  (`min_train_samples ≥ 1`
per the configuration contract, so the python range bounds are nonnegative.) -/
def trainIndices (randint : Nat → Nat → Nat) (m S : Nat) : List Nat :=
  (List.range' (m - 1) ((S - 1) - (m - 1))).map (fun i => randint 0 i)

/-- Source line 68: `z = {name: z[name][min_train_samples : -1] for name in z}`.
The python slice `l[m:-1]` keeps positions `m .. len l - 2`,
i.e. `(l.drop m).dropLast`. -/
def zTrim (m : Nat) (z : Chan α) : Chan α :=
  chanMap (fun l => (l.drop m).dropLast) z

/-- Source line 79: `x_train = {name: x[name][train_indices] for name in x}`
(integer-array indexing along the samples dimension; the indices produced by
`trainIndices` are in range, so the `getD` default is never consulted there). -/
def xTrainOf [Inhabited α] (randint : Nat → Nat → Nat) (m : Nat) (x : Chan α) : Chan α :=
  chanMap (fun l => (trainIndices randint m (samplesLen x)).map (fun i => l.getD i default)) x

/-- Source line 80: `x_nexttoken = {name: x[name][min_train_samples:] for name in x}`. -/
def xNextOf (m : Nat) (x : Chan α) : Chan α :=
  chanMap (List.drop m) x

/-- The index set selected by the slice `x[min_train_samples:]` on a batch of
samples-length `S` (source line 80): the next-token query positions
`m, m+1, ..., S-1`. -/
def nextTokenIndices (m S : Nat) : List Nat :=
  List.range' m (S - m)

/-- The two prediction branches of `MetaOptimizerExplicit.forward`. -/
inductive PredBranch
  | trainB
  | nextB
deriving DecidableEq, Repr

/-- Observable events of one `forward` call: a predictor invocation
(recording the module's training flag and whether gradient tracking was
enabled at that moment), or a `self.train(b)` mode switch. -/
inductive FwdEvent
  | predCall (b : PredBranch) (training : Bool) (gradOn : Bool)
  | setTrain (b : Bool)
deriving DecidableEq, Repr

/-- The tuple returned by `MetaOptimizerExplicit.forward` (source line 97). -/
structure FwdOut (α : Type) where
  preds_train : Chan α
  preds_nexttoken : Chan α
  x_train : Chan α
  x_nexttoken : Chan α
  z : Chan α
deriving DecidableEq, Repr

/-- Outcome of one `MetaOptimizerExplicit.forward` call: the returned tuple
(or the exception that escaped), the module's training flag at the moment the
call returns or the exception propagates out, and the event trace. -/
structure ForwardRun (α : Type) where
  result : Except String (FwdOut α)
  training : Bool
  events : List FwdEvent
deriving Repr

/-- Source lines 63-97, `MetaOptimizerExplicit.forward`.

`context_aggregator` and `predictor` are the external models; the predictor
oracle receives the training flag and the gradient-tracking flag in effect at
its call site (it is invoked as `self.predictor.forward(query, z)` in the
source; the flags determine the module mode and `torch.inference_mode`
scope surrounding the call) and may raise (`Except.error`).  `mode0` is
`self.training` at entry and `grad0` the ambient gradient-tracking state.

The source has no `try`/`finally`: `self.train(mode)` on line 95 runs only
when both branches return normally, so an exception leaves the flag as it
was at the raise point. -/
def MetaOptimizerExplicit.forward [Inhabited α]
    (meta_objective : String) (min_train_samples : Nat)
    (context_aggregator : Chan α → Chan α)
    (predictor : Bool → Bool → Chan α → Chan α → Except String (Chan α))
    (randint : Nat → Nat → Nat)
    (mode0 grad0 : Bool) (x : Chan α) : ForwardRun α :=
  let z := zTrim min_train_samples (context_aggregator x)
  let x_train := xTrainOf randint min_train_samples x
  let x_nexttoken := xNextOf min_train_samples x
  if meta_objective = "train" then
    match predictor mode0 grad0 x_train z with
    | .error e => ⟨.error e, mode0, [.predCall .trainB mode0 grad0]⟩
    | .ok preds_train =>
      match predictor false false x_nexttoken z with
      | .error e =>
        ⟨.error e, false,
          [.predCall .trainB mode0 grad0, .setTrain false, .predCall .nextB false false]⟩
      | .ok preds_nexttoken =>
        ⟨.ok ⟨preds_train, preds_nexttoken, x_train, x_nexttoken, z⟩, mode0,
          [.predCall .trainB mode0 grad0, .setTrain false, .predCall .nextB false false,
            .setTrain mode0]⟩
  else if meta_objective = "prequential" then
    match predictor mode0 grad0 x_nexttoken z with
    | .error e => ⟨.error e, mode0, [.predCall .nextB mode0 grad0]⟩
    | .ok preds_nexttoken =>
      match predictor false false x_train z with
      | .error e =>
        ⟨.error e, false,
          [.predCall .nextB mode0 grad0, .setTrain false, .predCall .trainB false false]⟩
      | .ok preds_train =>
        ⟨.ok ⟨preds_train, preds_nexttoken, x_train, x_nexttoken, z⟩, mode0,
          [.predCall .nextB mode0 grad0, .setTrain false, .predCall .trainB false false,
            .setTrain mode0]⟩
  else
    ⟨.error ("ValueError: Invalid meta_objective: " ++ meta_objective), mode0, []⟩

/-- Source lines 23-32: `__init__` is decorated with `@beartype` and annotates
`meta_objective: Literal["train", "prequential"]`, so constructing a
`MetaOptimizerExplicit` with any other value raises a beartype type-check
violation before the module (and hence any forward/tensor computation)
exists. -/
def MetaOptimizerExplicit.validateMetaObjective (meta_objective : String) :
    Except String String :=
  if meta_objective = "train" ∨ meta_objective = "prequential" then .ok meta_objective
  else .error ("BeartypeCallHintParamViolation: meta_objective " ++ meta_objective
    ++ " not in Literal[train, prequential]")

/-- `tensor.mean()` over a `(samples, tasks)` loss tensor: total sum divided
by the number of elements. -/
def matMean (mat : List (List ℚ)) : ℚ :=
  (mat.map List.sum).sum / ((mat.map List.length).sum : ℚ)

/-- Source lines 358-392, `MetaOptimizerExplicit.losses_and_metrics`.
`loss_function` is the abstract per-channel elementwise loss hook (source
lines 394-407) returning a `(samples, tasks)` tensor.  Returns the scalar
loss together with the list of `self.log` records `(name, value)`. -/
def MetaOptimizerExplicit.losses_and_metrics
    (meta_objective : String) (training : Bool)
    (loss_function : Chan ℚ → Chan ℚ → List (List ℚ))
    (preds_train preds_nexttoken x_train x_nexttoken : Chan ℚ) :
    ℚ × List (String × ℚ) :=
  let mode := if training then "train_tasks" else "val_tasks"
  let loss_train := matMean (loss_function x_train preds_train)
  let loss_nexttoken := matMean (loss_function x_nexttoken preds_nexttoken)
  let loss := if meta_objective = "train" then loss_train else loss_nexttoken
  (loss, [(mode ++ "/loss_train", loss_train), (mode ++ "/loss_nexttoken", loss_nexttoken)])

/-- `loss.sum(dim=-1) / num_tasks` for one batch's `(samples, tasks)` loss
tensor (source lines 172-175 and 492-493): the per-sample task sums divided
by the total task count. -/
def batchCurve (num_tasks : ℚ) (lossM : List (List ℚ)) : List ℚ :=
  lossM.map (fun r => r.sum / num_tasks)

/-- Elementwise `+=` of two accumulated per-sample curves (source lines
180-181 and 498). -/
def addCurve (a b : List ℚ) : List ℚ :=
  List.zipWith (· + ·) a b

/-- The `None`-initialized accumulation loop of `log_loss_vs_nsamples`
(source lines 488-498): the first batch's curve initializes the accumulator
and later batches are added elementwise.  The input is the list of per-batch
`(samples, tasks)` loss tensors. -/
def epochCurve (num_tasks : ℚ) : List (List (List ℚ)) → Option (List ℚ)
  | [] => none
  | b :: bs =>
    some (bs.foldl (fun acc b2 => addCurve acc (batchCurve num_tasks b2)) (batchCurve num_tasks b))

/-- Concatenation of a batch partition along the tasks dimension: the full
epoch's `(samples, num_tasks)` loss tensor from which the per-batch tensors
were split.  `S` is the shared samples length. -/
def concatTasks (S : Nat) : List (List (List ℚ)) → List (List ℚ)
  | [] => List.replicate S []
  | b :: bs => List.zipWith (· ++ ·) b (concatTasks S bs)

/-- Source lines 476-505, `MetaOptimizerImplicit.log_loss_vs_nsamples`.
The per-batch loss tensors `self.loss_function(x_nexttoken, preds_nexttoken)`
(produced by the external model plus the abstract loss hook) are the input;
the function accumulates them into the loss-vs-context-size curve and emits
one log record `(n_samples, value)` per curve position.  With no logger it
returns no records; with an empty dataloader the accumulator stays `None`
and `len(None)` on line 500 raises. -/
def MetaOptimizerImplicit.log_loss_vs_nsamples
    (logger : Bool) (num_tasks : ℚ) (min_train_samples : Nat)
    (batchLosses : List (List (List ℚ))) : Except String (List (Nat × ℚ)) :=
  if logger = false then .ok []
  else
    match epochCurve num_tasks batchLosses with
    | none => .error "TypeError: object of type NoneType has no len()"
    | some curve =>
      .ok ((List.range curve.length).map
        (fun i => (i + min_train_samples - 1, curve.getD i 0)))

/-- The key set of the `all_x` dict in
`MetaOptimizerExplicit.log_loss_vs_nsamples` (source line 151). -/
def allXKeys : List String := ["x", "y", "x_ood", "y_ood", "y_pred"]

/-- Source lines 155-156: `for key in all_x: all_x[key].append(x[key])` —
each listed key is read out of the batch dict; the first missing key raises
`KeyError`. -/
def readKeys (x : Chan α) : List String → Except String Unit
  | [] => .ok ()
  | k :: ks =>
    match lookupChan x k with
    | .none => .error ("KeyError: " ++ k)
    | .some _ => readKeys x ks

/-- The batch loop of `MetaOptimizerExplicit.log_loss_vs_nsamples` (source
lines 153-195).  Each iteration first reads every `all_x` key out of the
batch dict (line 156), then accumulates the train-branch and next-token
curves, and — only when `has_ood` — the OOD curve.  The composite of
`self.forward` and `self.loss_function` on a batch is the oracle
`branchLoss` (train loss tensor, next-token loss tensor); the OOD composite
of lines 184-189 is the oracle `oodLoss`. -/
def llvnAccum (hasOod : Bool) (num_tasks : ℚ)
    (branchLoss : Chan ℚ → List (List ℚ) × List (List ℚ))
    (oodLoss : Chan ℚ → List (List ℚ)) :
    List (Chan ℚ) → Option (List ℚ) × Option (List ℚ) × Option (List ℚ) →
      Except String (Option (List ℚ) × Option (List ℚ) × Option (List ℚ))
  | [], acc => .ok acc
  | x :: xs, (aT, aN, aO) =>
    match readKeys x allXKeys with
    | .error e => .error e
    | .ok _ =>
      let ct := batchCurve num_tasks (branchLoss x).1
      let cn := batchCurve num_tasks (branchLoss x).2
      let aT2 := some (match aT with | none => ct | some c => addCurve c ct)
      let aN2 := some (match aN with | none => cn | some c => addCurve c cn)
      if hasOod then
        let co := batchCurve num_tasks (oodLoss x)
        let aO2 := some (match aO with | none => co | some c => addCurve c co)
        llvnAccum hasOod num_tasks branchLoss oodLoss xs (aT2, aN2, aO2)
      else
        llvnAccum hasOod num_tasks branchLoss oodLoss xs (aT2, aN2, aO)

/-- Source lines 134-202, the entry and batch loop of
`MetaOptimizerExplicit.log_loss_vs_nsamples` up to the concatenation step.
With no logger it returns immediately (line 136).  After the loop,
`torch.cat(loss_train_all, dim=1)` (line 200) raises if no batch was
processed, and `torch.cat(loss_ood_all, dim=1)` (line 202) raises whenever
`has_ood` is false, because `loss_ood_all` stays empty. -/
def MetaOptimizerExplicit.log_loss_vs_nsamples
    (logger hasOod : Bool) (num_tasks : ℚ)
    (branchLoss : Chan ℚ → List (List ℚ) × List (List ℚ))
    (oodLoss : Chan ℚ → List (List ℚ))
    (batches : List (Chan ℚ)) :
    Except String (Option (List ℚ) × Option (List ℚ) × Option (List ℚ)) :=
  if logger = false then .ok (none, none, none)
  else
    match llvnAccum hasOod num_tasks branchLoss oodLoss batches (none, none, none) with
    | .error e => .error e
    | .ok acc =>
      if batches.isEmpty then
        .error "RuntimeError: torch.cat expected a non-empty list of Tensors"
      else if hasOod = false then
        .error "RuntimeError: torch.cat expected a non-empty list of Tensors"
      else .ok acc

/-- Source line 344: `z = z[torch.randperm(len(z))[:10]]` — select at most 10
axis-0 slices of the batch's `z` tensor, per the permutation oracle `perm`. -/
def subsampleSeqs (perm : List Nat) (z : List (List (List ℚ))) : List (List (List ℚ)) :=
  (perm.take 10).map (fun i => z.getD i [])

/-- Source lines 337-351, the collection loop of
`MetaOptimizerExplicit.log_effective_zdim`: per batch, subsample at most 10
axis-0 slices of `z`, flatten them to context vectors
(`z.view(-1, z.shape[-1])`, line 345) and append; stop when the accumulated
count exceeds 10000 — the check runs after appending, so the final
collection keeps the overshooting batch. -/
def collectZs : List (List Nat) → List (List (List (List ℚ))) → List (List ℚ) → List (List ℚ)
  | _, [], zs => zs
  | [], _ :: _, zs => zs
  | perm :: perms, z :: batches, zs =>
    let zs2 := zs ++ (subsampleSeqs perm z).flatten
    if 10000 < zs2.length then zs2 else collectZs perms batches zs2

/-- Source line 355: the participation ratio
`(variance_explained.sum() ** 2) / (variance_explained ** 2).sum()`. -/
def effdim (variance_explained : List ℚ) : ℚ :=
  variance_explained.sum ^ 2 / (variance_explained.map (fun v => v ^ 2)).sum

/-- Source lines 325-356, `MetaOptimizerExplicit.log_effective_zdim` for
well-formed (single-channel, rank-3) contexts: no-op without a logger,
otherwise collect the subsampled context vectors and log the participation
ratio of the variance-explained spectrum.  `torch_pca` (imported from
`utils`, not part of this file's sources) is an oracle returning that
spectrum; `perms` are the per-batch `torch.randperm` draws. -/
def MetaOptimizerExplicit.log_effective_zdim
    (logger : Bool) (perms : List (List Nat))
    (batchZs : List (List (List (List ℚ))))
    (torch_pca : List (List ℚ) → List ℚ) : Option ℚ :=
  if logger = false then none
  else some (effdim (torch_pca (collectZs perms batchZs [])))

/-- A total predictor oracle for concrete runs: returns its query unchanged
and never raises. -/
def okPredictor : Bool → Bool → Chan ℕ → Chan ℕ → Except String (Chan ℕ) :=
  fun _ _ q _ => Except.ok q

/-- A `random.randint` oracle for concrete runs: always draws the upper
bound, which satisfies the `randint lo hi ∈ [lo, hi]` contract. -/
def maxRandint : Nat → Nat → Nat := fun _ hi => hi

/-- The alignment contract of the trimmed context returned by `forward`:
every channel of the trimmed `z` has samples-length `S - m` and its position
`j` holds the aggregator output's position `m + j`; the train-query and
next-token-query channel lists have the same samples-length `S - m`. -/
def windowAligned (m S : Nat) (zfull : Chan α) (out : FwdOut α) : Prop :=
  (∀ p ∈ out.z, p.2.length = S - m) ∧
  (∀ p ∈ out.x_train, p.2.length = S - m) ∧
  (∀ p ∈ out.x_nexttoken, p.2.length = S - m) ∧
  (∀ i : Nat, ∀ p : String × List α, out.z[i]? = some p →
    ∃ q, zfull[i]? = some q ∧ p.1 = q.1 ∧
      ∀ j : Nat, j < S - m → p.2[j]? = q.2[m + j]?)

/-- The index contract of the windowing engine for samples-length `S` and
minimum context length `m`: the next-token positions are the consecutive run
`m, ..., S-1` of length `S - m`; the train indices have the same length,
the entry at output slot `j` being the `random.randint` draw from
`[0, (m-1)+j]`, hence strictly below the aligned next-token position
`m + j`; and the slice `x[m:]` selects exactly the next-token positions. -/
def windowIndexContract (α : Type) [Inhabited α] (randint : Nat → Nat → Nat) (m S : Nat) : Prop :=
  ((nextTokenIndices m S).length = S - m) ∧
  (∀ j : Nat, j < S - m → (nextTokenIndices m S)[j]? = some (m + j)) ∧
  ((trainIndices randint m S).length = S - m) ∧
  (∀ j : Nat, j < S - m →
    (trainIndices randint m S)[j]? = some (randint 0 (m - 1 + j)) ∧
      randint 0 (m - 1 + j) ≤ m - 1 + j ∧ m - 1 + j < m + j) ∧
  (∀ l : List α, l.length = S →
    List.drop m l = (nextTokenIndices m S).map (fun i => l.getD i default))

/-! Helper lemmas. -/

/-- On a successful call, the returned tuple's query/context fields are the
windowing results and the training flag is restored to its entry value. -/
theorem forward_ok_fields [Inhabited α] {obj : String} {m : Nat}
    {agg : Chan α → Chan α}
    {predictor : Bool → Bool → Chan α → Chan α → Except String (Chan α)}
    {randint : Nat → Nat → Nat} {mode0 grad0 : Bool} {x : Chan α} {out : FwdOut α}
    (hok : (MetaOptimizerExplicit.forward obj m agg predictor randint mode0 grad0 x).result
      = Except.ok out) :
    out.x_train = xTrainOf randint m x ∧ out.x_nexttoken = xNextOf m x ∧
      out.z = zTrim m (agg x) ∧
      (MetaOptimizerExplicit.forward obj m agg predictor randint mode0 grad0 x).training
        = mode0 := by
  unfold MetaOptimizerExplicit.forward at hok ⊢
  by_cases h1 : obj = "train"
  · rw [h1, if_pos rfl] at hok ⊢
    cases hp1 : predictor mode0 grad0 (xTrainOf randint m x) (zTrim m (agg x)) with
    | error e => rw [hp1] at hok; cases hok
    | ok v1 =>
      rw [hp1] at hok
      cases hp2 : predictor false false (xNextOf m x) (zTrim m (agg x)) with
      | error e => rw [hp2] at hok; cases hok
      | ok v2 =>
        rw [hp2] at hok
        cases hok
        exact ⟨rfl, rfl, rfl, rfl⟩
  · rw [if_neg h1] at hok ⊢
    by_cases h2 : obj = "prequential"
    · rw [h2, if_pos rfl] at hok ⊢
      cases hp1 : predictor mode0 grad0 (xNextOf m x) (zTrim m (agg x)) with
      | error e => rw [hp1] at hok; cases hok
      | ok v1 =>
        rw [hp1] at hok
        cases hp2 : predictor false false (xTrainOf randint m x) (zTrim m (agg x)) with
        | error e => rw [hp2] at hok; cases hok
        | ok v2 =>
          rw [hp2] at hok
          cases hok
          exact ⟨rfl, rfl, rfl, rfl⟩
    · rw [if_neg h2] at hok
      cases hok

/-! Claim theorems. -/

/-- C2: with objective `train`, `forward` first invokes the predictor on the
train branch with the entry training flag and the ambient gradient state
unchanged, then switches the module to evaluation mode and invokes the
next-token branch inside the no-gradient `torch.inference_mode` scope
(training flag off, gradients off); with objective `prequential` the branch
order and roles are exactly reversed. -/
theorem C2_objective_branch_modes [Inhabited α] (m : Nat)
    (agg : Chan α → Chan α)
    (predictor : Bool → Bool → Chan α → Chan α → Except String (Chan α))
    (randint : Nat → Nat → Nat) (mode0 grad0 : Bool) (x : Chan α)
    (hp : ∀ tr gr q z, ∃ v, predictor tr gr q z = Except.ok v) :
    (MetaOptimizerExplicit.forward "train" m agg predictor randint mode0 grad0 x).events =
      [.predCall .trainB mode0 grad0, .setTrain false, .predCall .nextB false false,
        .setTrain mode0] ∧
    (MetaOptimizerExplicit.forward "prequential" m agg predictor randint mode0 grad0 x).events =
      [.predCall .nextB mode0 grad0, .setTrain false, .predCall .trainB false false,
        .setTrain mode0] := by
  obtain ⟨v1, hv1⟩ := hp mode0 grad0 (xTrainOf randint m x) (zTrim m (agg x))
  obtain ⟨v2, hv2⟩ := hp false false (xNextOf m x) (zTrim m (agg x))
  obtain ⟨v3, hv3⟩ := hp mode0 grad0 (xNextOf m x) (zTrim m (agg x))
  obtain ⟨v4, hv4⟩ := hp false false (xTrainOf randint m x) (zTrim m (agg x))
  constructor
  · unfold MetaOptimizerExplicit.forward
    rw [if_pos rfl, hv1, hv2]
  · unfold MetaOptimizerExplicit.forward
    rw [if_neg (by decide), if_pos rfl, hv3, hv4]

/-- C2 witness: a concrete run with a total predictor realizes both traces. -/
theorem C2_objective_branch_modes_witness :
    (MetaOptimizerExplicit.forward "train" 1 id okPredictor maxRandint true true
        [("x", [0, 1])]).events =
      [.predCall .trainB true true, .setTrain false, .predCall .nextB false false,
        .setTrain true] ∧
    (MetaOptimizerExplicit.forward "prequential" 1 id okPredictor maxRandint true true
        [("x", [0, 1])]).events =
      [.predCall .nextB true true, .setTrain false, .predCall .trainB false false,
        .setTrain true] :=
  C2_objective_branch_modes 1 id okPredictor maxRandint true true [("x", [0, 1])]
    (fun _ _ q _ => ⟨q, rfl⟩)

/-- C3 counterexample: objective `train`, module entered in training mode,
next-token predictor call raising — the exception escapes `forward` with the
module left in evaluation mode (`training = false`), so the entry mode is
not restored on the error path (the source has no `try`/`finally` around
lines 82-95). -/
theorem C3_mode_not_restored_on_error :
    (MetaOptimizerExplicit.forward (α := ℕ) "train" 1 id
        (fun tr _ q _ => if tr then Except.ok q else Except.error "predictor failure")
        maxRandint true true [("x", [0, 1])]).training = false ∧
    (MetaOptimizerExplicit.forward (α := ℕ) "train" 1 id
        (fun tr _ q _ => if tr then Except.ok q else Except.error "predictor failure")
        maxRandint true true [("x", [0, 1])]).result =
      Except.error "predictor failure" := by
  exact ⟨rfl, rfl⟩

/-- C3 (amended): when both predictor calls return normally, `forward`
restores the module's training flag to exactly its entry value; because the
source lacks a `try`/`finally`, the restoration is not performed when a
branch raises — an error in the second (no-gradient) branch leaves the
module in evaluation mode. -/
theorem C3_mode_restored_on_success [Inhabited α]
    (obj : String) (m : Nat) (agg : Chan α → Chan α)
    (predictor : Bool → Bool → Chan α → Chan α → Except String (Chan α))
    (randint : Nat → Nat → Nat) (mode0 grad0 : Bool) (x : Chan α) (out : FwdOut α)
    (hok : (MetaOptimizerExplicit.forward obj m agg predictor randint mode0 grad0 x).result
      = Except.ok out) :
    (MetaOptimizerExplicit.forward obj m agg predictor randint mode0 grad0 x).training
      = mode0 :=
  (forward_ok_fields hok).2.2.2

/-- C3 witness: a concrete successful run entered in training mode returns
with the flag restored to `true`. -/
theorem C3_mode_restored_on_success_witness :
    (MetaOptimizerExplicit.forward "train" 1 id okPredictor maxRandint true true
        [("x", [0, 1])]).result =
      Except.ok ⟨[("x", [0])], [("x", [1])], [("x", [0])], [("x", [1])], [("x", [])]⟩ ∧
    (MetaOptimizerExplicit.forward "train" 1 id okPredictor maxRandint true true
        [("x", [0, 1])]).training = true :=
  ⟨rfl, C3_mode_restored_on_success "train" 1 id okPredictor maxRandint true true
    [("x", [0, 1])] ⟨[("x", [0])], [("x", [1])], [("x", [0])], [("x", [1])], [("x", [])]⟩ rfl⟩

/-- C4: `losses_and_metrics` takes the full mean of the elementwise loss
tensor of each branch, logs both means under the mode-qualified names
(`train_tasks/...` when the module is in training mode, `val_tasks/...`
otherwise), and returns the scalar matching the active meta-objective:
`loss_function(x_train, preds_train).mean()` for `train` and the next-token
mean for `prequential`. -/
theorem C4_losses_and_metrics_selection
    (meta_objective : String) (training : Bool)
    (loss_function : Chan ℚ → Chan ℚ → List (List ℚ))
    (pt pn xt xn : Chan ℚ) :
    ((MetaOptimizerExplicit.losses_and_metrics meta_objective training loss_function
        pt pn xt xn).2 =
      [((if training then "train_tasks" else "val_tasks") ++ "/loss_train",
          matMean (loss_function xt pt)),
        ((if training then "train_tasks" else "val_tasks") ++ "/loss_nexttoken",
          matMean (loss_function xn pn))]) ∧
    (meta_objective = "train" →
      (MetaOptimizerExplicit.losses_and_metrics meta_objective training loss_function
          pt pn xt xn).1 = matMean (loss_function xt pt)) ∧
    (meta_objective = "prequential" →
      (MetaOptimizerExplicit.losses_and_metrics meta_objective training loss_function
          pt pn xt xn).1 = matMean (loss_function xn pn)) := by
  refine ⟨rfl, fun h => ?_, fun h => ?_⟩
  · simp [MetaOptimizerExplicit.losses_and_metrics, h]
  · simp [MetaOptimizerExplicit.losses_and_metrics, h]

/-- C4 witness: concrete runs for both objectives and both module modes. -/
theorem C4_losses_and_metrics_selection_witness :
    ((MetaOptimizerExplicit.losses_and_metrics "train" true (fun _ _ => [[2, 4]])
        [] [] [] []).1 = matMean [[2, 4]]) ∧
    ((MetaOptimizerExplicit.losses_and_metrics "prequential" false (fun _ _ => [[2, 4]])
        [] [] [] []).1 = matMean [[2, 4]]) ∧
    ((MetaOptimizerExplicit.losses_and_metrics "train" true (fun _ _ => [[2, 4]])
        [] [] [] []).2 =
      [("train_tasks" ++ "/loss_train", matMean [[2, 4]]),
        ("train_tasks" ++ "/loss_nexttoken", matMean [[2, 4]])]) :=
  ⟨(C4_losses_and_metrics_selection "train" true (fun _ _ => [[2, 4]]) [] [] [] []).2.1 rfl,
    (C4_losses_and_metrics_selection "prequential" false (fun _ _ => [[2, 4]]) [] [] [] []).2.2 rfl,
    (C4_losses_and_metrics_selection "train" true (fun _ _ => [[2, 4]]) [] [] [] []).1⟩

/-- C6: any `meta_objective` outside `Literal["train", "prequential"]` is
rejected by the beartype runtime check on `__init__`, so the module is never
constructed and no forward/tensor computation — in particular no context
aggregator or predictor call — can take place for such a configuration. -/
theorem C6_invalid_objective_rejected (obj : String)
    (h1 : obj ≠ "train") (h2 : obj ≠ "prequential") :
    MetaOptimizerExplicit.validateMetaObjective obj =
      Except.error ("BeartypeCallHintParamViolation: meta_objective " ++ obj
        ++ " not in Literal[train, prequential]") := by
  unfold MetaOptimizerExplicit.validateMetaObjective
  rw [if_neg]
  rintro (h | h)
  · exact h1 h
  · exact h2 h

/-- C6 witness: the objective string `foo` is rejected. -/
theorem C6_invalid_objective_rejected_witness :
    ("foo" ≠ "train") ∧ ("foo" ≠ "prequential") ∧
    MetaOptimizerExplicit.validateMetaObjective "foo" =
      Except.error ("BeartypeCallHintParamViolation: meta_objective " ++ "foo"
        ++ " not in Literal[train, prequential]") :=
  ⟨by decide, by decide, C6_invalid_objective_rejected "foo" (by decide) (by decide)⟩

/-- C1: for a batch with samples-dimension `S` and `min_train_samples = m`
(`1 ≤ m ≤ S`), a successful `forward` returns a trimmed context starting at
offset `m` into the aggregator output (the source's `z[m:-1]` convention —
the second of the spec's two conventions; the aggregator output runs from
0 context to full context, length `S + 1`, per the source comment on lines
65-67) whose channels have samples-length `S - m`, aligned 1:1 with the
returned train-query and next-token-query channel lists, which also have
samples-length `S - m`; in particular `S = 10`, `m = 3` gives length `7`. -/
theorem C1_trimmed_context_alignment [Inhabited α]
    (obj : String) (m S : Nat) (agg : Chan α → Chan α)
    (predictor : Bool → Bool → Chan α → Chan α → Except String (Chan α))
    (randint : Nat → Nat → Nat) (mode0 grad0 : Bool) (x : Chan α) (out : FwdOut α)
    (hm : 1 ≤ m) (hmS : m ≤ S) (hxne : x ≠ [])
    (hxlen : ∀ p ∈ x, p.2.length = S)
    (hzlen : ∀ p ∈ agg x, p.2.length = S + 1)
    (hok : (MetaOptimizerExplicit.forward obj m agg predictor randint mode0 grad0 x).result
      = Except.ok out) :
    windowAligned m S (agg x) out := by
  obtain ⟨hxt, hxn, hz, -⟩ := forward_ok_fields hok
  have hS : samplesLen x = S := by
    cases x with
    | nil => exact absurd rfl hxne
    | cons p ps => exact hxlen p (List.mem_cons_self p ps)
  refine ⟨?_, ?_, ?_, ?_⟩
  · rw [hz]
    intro p hp
    obtain ⟨q, hq, rfl⟩ := List.mem_map.mp hp
    have hql := hzlen q hq
    simp only [List.length_dropLast, List.length_drop, hql]
    omega
  · rw [hxt]
    intro p hp
    obtain ⟨q, hq, rfl⟩ := List.mem_map.mp hp
    simp only [List.length_map, trainIndices, List.length_range', hS]
    omega
  · rw [hxn]
    intro p hp
    obtain ⟨q, hq, rfl⟩ := List.mem_map.mp hp
    simp only [List.length_drop, hxlen q hq]
  · rw [hz]
    intro i p hp
    unfold zTrim chanMap at hp
    rw [List.getElem?_map] at hp
    cases hq : (agg x)[i]? with
    | none => rw [hq] at hp; cases hp
    | some q =>
      rw [hq] at hp
      have hpq : p = (q.1, (q.2.drop m).dropLast) := by
        simpa using hp.symm
      have hqlen : q.2.length = S + 1 :=
        hzlen q (by rw [List.mem_iff_getElem?]; exact ⟨i, hq⟩)
      refine ⟨q, rfl, by rw [hpq], ?_⟩
      intro j hj
      rw [hpq]
      show ((q.2.drop m).dropLast)[j]? = q.2[m + j]?
      rw [List.dropLast_eq_take, List.getElem?_take_of_lt, List.getElem?_drop]
      rw [List.length_drop, hqlen]
      omega

/-- C1 witness: `S = 10`, `m = 3`: the trimmed context has length 7
(positions 3..9 of the aggregator output) and both query lists also have
length 7. -/
theorem C1_trimmed_context_alignment_witness :
    ((1 : Nat) ≤ 3) ∧ ((3 : Nat) ≤ 10) ∧
    ((MetaOptimizerExplicit.forward "train" 3 (fun _ => [("z", [0, 1, 2, 3, 4, 5, 6, 7, 8, 9, 10])])
        okPredictor maxRandint true true [("x", [0, 1, 2, 3, 4, 5, 6, 7, 8, 9])]).result =
      Except.ok ⟨[("x", [2, 3, 4, 5, 6, 7, 8])], [("x", [3, 4, 5, 6, 7, 8, 9])],
        [("x", [2, 3, 4, 5, 6, 7, 8])], [("x", [3, 4, 5, 6, 7, 8, 9])],
        [("z", [3, 4, 5, 6, 7, 8, 9])]⟩) ∧
    windowAligned 3 10 [("z", [0, 1, 2, 3, 4, 5, 6, 7, 8, 9, 10])]
      ⟨[("x", [2, 3, 4, 5, 6, 7, 8])], [("x", [3, 4, 5, 6, 7, 8, 9])],
        [("x", [2, 3, 4, 5, 6, 7, 8])], [("x", [3, 4, 5, 6, 7, 8, 9])],
        [("z", [3, 4, 5, 6, 7, 8, 9])]⟩ :=
  ⟨by decide, by decide, rfl,
    C1_trimmed_context_alignment "train" 3 10
      (fun _ => [("z", [0, 1, 2, 3, 4, 5, 6, 7, 8, 9, 10])]) okPredictor maxRandint true true
      [("x", [0, 1, 2, 3, 4, 5, 6, 7, 8, 9])] _
      (by decide) (by decide) (by decide) (by decide) (by decide) rfl⟩

/-- C5: for all `S > m ≥ 1`, the windowing produces next-token query
positions `m, ..., S-1` — length exactly `S - m` (the source's convention),
increasing by 1 — and train indices of the same length, the entry at output
slot `j` being the `random.randint` draw from `[0, (m-1)+j]` inclusive, so
every train index is at most (indeed, strictly below) the aligned next-token
position; the slice `x[m:]` realizes exactly the next-token index set. -/
theorem C5_windowing_indices (α : Type) [Inhabited α] (randint : Nat → Nat → Nat) (m S : Nat)
    (hm : 1 ≤ m) (hS : m < S) (hr : ∀ i, randint 0 i ≤ i) :
    windowIndexContract α randint m S := by
  refine ⟨?_, ?_, ?_, ?_, ?_⟩
  · simp [nextTokenIndices]
  · intro j hj
    rw [nextTokenIndices, List.getElem?_range' _ _ hj]
    simp
  · simp only [trainIndices, List.length_map, List.length_range']
    omega
  · intro j hj
    refine ⟨?_, hr _, by omega⟩
    rw [trainIndices, List.getElem?_map, List.getElem?_range' _ _ (by omega : j < (S - 1) - (m - 1))]
    simp
  · intro l hl
    refine List.ext_getElem? (fun n => ?_)
    rw [List.getElem?_drop, List.getElem?_map]
    by_cases hn : n < S - m
    · rw [nextTokenIndices, List.getElem?_range' _ _ hn]
      have hmn : m + 1 * n < l.length := by omega
      simp only [Option.map_some']
      rw [List.getD_eq_getElem?_getD, List.getElem?_eq_getElem hmn]
      rw [show m + n = m + 1 * n by ring, List.getElem?_eq_getElem hmn]
      rfl
    · rw [List.getElem?_eq_none (by omega : l.length ≤ m + n)]
      rw [nextTokenIndices, List.getElem?_eq_none (by simp; omega)]
      rfl

/-- C5 witness: `m = 3`, `S = 10` with the maximal admissible
`random.randint` oracle. -/
theorem C5_windowing_indices_witness :
    ((1 : Nat) ≤ 3) ∧ ((3 : Nat) < 10) ∧ (∀ i, maxRandint 0 i ≤ i) ∧
    windowIndexContract ℕ maxRandint 3 10 :=
  ⟨by decide, by decide, fun i => Nat.le_refl i,
    C5_windowing_indices ℕ maxRandint 3 10 (by decide) (by decide) (fun i => Nat.le_refl i)⟩

/-- Splitting a batch along the tasks dimension splits its per-sample curve
additively. -/
theorem batchCurve_merge (N : ℚ) (a b : List (List ℚ)) :
    batchCurve N (List.zipWith (· ++ ·) a b) = addCurve (batchCurve N a) (batchCurve N b) := by
  unfold batchCurve addCurve
  rw [List.map_zipWith, List.zipWith_map]
  simp only [List.sum_append, add_div]

/-- Curve addition is associative. -/
theorem addCurve_assoc (a b c : List ℚ) :
    addCurve (addCurve a b) c = addCurve a (addCurve b c) := by
  unfold addCurve
  induction a generalizing b c with
  | nil => simp
  | cons x xs ih =>
    cases b with
    | nil => simp
    | cons y ys =>
      cases c with
      | nil => simp
      | cons z zs => simp [ih, add_assoc]

/-- The curve of the empty task population is all zeros. -/
theorem batchCurve_replicate (N : ℚ) (S : Nat) :
    batchCurve N (List.replicate S []) = List.replicate S 0 := by
  unfold batchCurve
  rw [List.map_replicate]
  simp

/-- The all-zero curve is neutral for curve addition. -/
theorem addCurve_replicate_zero (a : List ℚ) (S : Nat) (h : a.length = S) :
    addCurve a (List.replicate S 0) = a := by
  unfold addCurve
  induction a generalizing S with
  | nil => simp
  | cons x xs ih =>
    cases S with
    | zero => cases h
    | succ n =>
      rw [List.replicate_succ]
      simp only [List.zipWith_cons_cons, add_zero]
      rw [ih n (by simpa using h)]

/-- The epoch foldl over per-batch curves collapses to the curve of the
tasks-dimension concatenation. -/
theorem foldl_addCurve_concat (N : ℚ) (S : Nat) (bs : List (List (List ℚ))) (acc : List ℚ)
    (hb : ∀ b ∈ bs, b.length = S) (ha : acc.length = S) :
    bs.foldl (fun acc2 b2 => addCurve acc2 (batchCurve N b2)) acc =
      addCurve acc (batchCurve N (concatTasks S bs)) := by
  induction bs generalizing acc with
  | nil =>
    simp only [List.foldl_nil, concatTasks]
    rw [batchCurve_replicate, addCurve_replicate_zero acc S ha]
  | cons b bs ih =>
    rw [List.foldl_cons]
    have hbl : (batchCurve N b).length = S := by
      rw [batchCurve, List.length_map, hb b (List.mem_cons_self b bs)]
    rw [ih (addCurve acc (batchCurve N b))
        (fun b2 hb2 => hb b2 (List.mem_cons_of_mem b hb2))
        (by rw [addCurve, List.length_zipWith, ha, hbl, min_self])]
    rw [concatTasks, batchCurve_merge, ← addCurve_assoc]

/-- The `None`-initialized accumulation over any nonempty batch list equals
the single-batch curve of the whole task population. -/
theorem epochCurve_eq_concat (N : ℚ) (S : Nat) (bs : List (List (List ℚ)))
    (hne : bs ≠ []) (hb : ∀ b ∈ bs, b.length = S) :
    epochCurve N bs = some (batchCurve N (concatTasks S bs)) := by
  cases bs with
  | nil => exact absurd rfl hne
  | cons b bs2 =>
    rw [epochCurve]
    rw [foldl_addCurve_concat N S bs2 (batchCurve N b)
      (fun b2 hb2 => hb b2 (List.mem_cons_of_mem b hb2))
      (by rw [batchCurve, List.length_map, hb b (List.mem_cons_self b bs2)])]
    rw [concatTasks, batchCurve_merge]

/-- C8: the loss-vs-context-size accumulation of `log_loss_vs_nsamples` —
per context length, sum the per-task losses of each batch, divide by the
total task count, add across the epoch — depends only on the epoch's full
per-task loss tensor, so any two batch partitions of the same task
population (same tasks-dimension concatenation) produce identical logged
curves. -/
theorem C8_batch_partition_invariance (logger : Bool) (N : ℚ) (m S : Nat)
    (bs1 bs2 : List (List (List ℚ)))
    (h1 : bs1 ≠ []) (h2 : bs2 ≠ [])
    (hb1 : ∀ b ∈ bs1, b.length = S) (hb2 : ∀ b ∈ bs2, b.length = S)
    (hsame : concatTasks S bs1 = concatTasks S bs2) :
    MetaOptimizerImplicit.log_loss_vs_nsamples logger N m bs1 =
      MetaOptimizerImplicit.log_loss_vs_nsamples logger N m bs2 := by
  unfold MetaOptimizerImplicit.log_loss_vs_nsamples
  rw [epochCurve_eq_concat N S bs1 h1 hb1, epochCurve_eq_concat N S bs2 h2 hb2, hsame]

/-- C8 witness: a 2-task population of one sample, either as one batch of
two tasks or as two batches of one task each, logs the same curve. -/
theorem C8_batch_partition_invariance_witness :
    ([[[(1 : ℚ), 2]]] ≠ ([] : List (List (List ℚ)))) ∧
    ([[[(1 : ℚ)]], [[(2 : ℚ)]]] ≠ ([] : List (List (List ℚ)))) ∧
    (∀ b ∈ [[[(1 : ℚ), 2]]], b.length = 1) ∧
    (∀ b ∈ [[[(1 : ℚ)]], [[(2 : ℚ)]]], b.length = 1) ∧
    concatTasks 1 [[[(1 : ℚ), 2]]] = concatTasks 1 [[[(1 : ℚ)]], [[(2 : ℚ)]]] ∧
    MetaOptimizerImplicit.log_loss_vs_nsamples true 2 1 [[[(1 : ℚ), 2]]] =
      MetaOptimizerImplicit.log_loss_vs_nsamples true 2 1 [[[(1 : ℚ)]], [[(2 : ℚ)]]] :=
  ⟨by decide, by decide, by decide, by decide, by decide,
    C8_batch_partition_invariance true 2 1 1 [[[(1 : ℚ), 2]]] [[[(1 : ℚ)]], [[(2 : ℚ)]]]
      (by decide) (by decide) (by decide) (by decide) (by decide)⟩

/-- Each per-batch subsample keeps at most 10 axis-0 slices. -/
theorem length_subsampleSeqs (perm : List Nat) (z : List (List (List ℚ))) :
    (subsampleSeqs perm z).length ≤ 10 := by
  unfold subsampleSeqs
  rw [List.length_map]
  exact List.length_take_le 10 perm

/-- Flattening a list of rows of length at most `T` yields at most
`(number of rows) * T` entries. -/
theorem flatten_length_le (l : List (List α)) (T : Nat) (h : ∀ r ∈ l, r.length ≤ T) :
    l.flatten.length ≤ l.length * T := by
  induction l with
  | nil => simp
  | cons r rs ih =>
    rw [List.flatten_cons, List.length_append, List.length_cons, Nat.succ_mul]
    have h1 := ih (fun r2 hr2 => h r2 (List.mem_cons_of_mem r hr2))
    have h2 := h r (List.mem_cons_self r rs)
    omega

/-- Subsampled slices keep the per-slice task count bound. -/
theorem subsampleSeqs_row_le (perm : List Nat) (z : List (List (List ℚ))) (T : Nat)
    (h : ∀ row ∈ z, row.length ≤ T) :
    ∀ r ∈ subsampleSeqs perm z, r.length ≤ T := by
  intro r hr
  unfold subsampleSeqs at hr
  obtain ⟨i, hi, rfl⟩ := List.mem_map.mp hr
  rw [List.getD_eq_getElem?_getD]
  cases hgi : z[i]? with
  | none => simp
  | some row =>
    simp only [Option.getD_some]
    exact h row (by rw [List.mem_iff_getElem?]; exact ⟨i, hgi⟩)

/-- The collection loop leaves the 10000 band by at most one batch's
contribution: starting below the threshold it ends below
`10000 + 10 * T` when every slice holds at most `T` vectors. -/
theorem collectZs_length_le (T : Nat) (perms : List (List Nat))
    (batches : List (List (List (List ℚ)))) (zs : List (List ℚ))
    (hb : ∀ b ∈ batches, ∀ row ∈ b, row.length ≤ T)
    (hzs : zs.length ≤ 10000) :
    (collectZs perms batches zs).length ≤ 10000 + 10 * T := by
  induction batches generalizing perms zs with
  | nil =>
    cases perms with
    | nil => rw [collectZs]; omega
    | cons p ps => rw [collectZs]; omega
  | cons b bs ih =>
    cases perms with
    | nil => rw [collectZs]; omega
    | cons p ps =>
      have hflat : (subsampleSeqs p b).flatten.length ≤ 10 * T := by
        calc (subsampleSeqs p b).flatten.length
            ≤ (subsampleSeqs p b).length * T :=
              flatten_length_le _ T
                (subsampleSeqs_row_le p b T (hb b (List.mem_cons_self b bs)))
          _ ≤ 10 * T := Nat.mul_le_mul_right T (length_subsampleSeqs p b)
      rw [collectZs]
      by_cases hcap : 10000 < (zs ++ (subsampleSeqs p b).flatten).length
      · rw [if_pos hcap, List.length_append]
        rw [List.length_append] at hcap
        omega
      · rw [if_neg hcap]
        exact ih ps (zs ++ (subsampleSeqs p b).flatten)
          (fun b2 hb2 => hb b2 (List.mem_cons_of_mem b hb2)) (by omega)

/-- C9 counterexample: a single batch whose one sampled axis-0 slice already
holds 10001 context vectors — the cap is checked only after appending, so
the collection handed to the principal-component step holds
10001 > 10000 vectors, refuting the at-most-10000 part of the claim. -/
theorem C9_cap_exceeded :
    10000 < (collectZs [[0]] [[List.replicate 10001 [(0 : ℚ)]]] []).length := by
  have h1 : subsampleSeqs [0] [List.replicate 10001 [(0 : ℚ)]]
      = [List.replicate 10001 [(0 : ℚ)]] := rfl
  have h2 : 10000 <
      (([] : List (List ℚ))
        ++ (subsampleSeqs [0] [List.replicate 10001 [(0 : ℚ)]]).flatten).length := by
    rw [h1]
    simp only [List.flatten_cons, List.flatten_nil, List.append_nil, List.nil_append,
      List.length_replicate]
    omega
  rw [collectZs, if_pos h2]
  exact h2

/-- C9 (amended): the effective-dimensionality diagnostic subsamples at most
10 axis-0 slices of the context per batch, stops collecting only after the
total exceeds 10000 (so the principal-component input is bounded by
`10000 + 10 * T` for `T` bounding vectors per slice, but can exceed 10000 by
up to one batch's contribution), and logs the participation ratio
`(Σλ)² / Σ(λ²)` of the variance-explained spectrum. -/
theorem C9_subsample_and_cap (T : Nat) (perms : List (List Nat))
    (batchZs : List (List (List (List ℚ)))) (torch_pca : List (List ℚ) → List ℚ)
    (hb : ∀ b ∈ batchZs, ∀ row ∈ b, row.length ≤ T) :
    (∀ perm z, (subsampleSeqs perm z).length ≤ 10) ∧
    (collectZs perms batchZs []).length ≤ 10000 + 10 * T ∧
    MetaOptimizerExplicit.log_effective_zdim true perms batchZs torch_pca =
      some (effdim (torch_pca (collectZs perms batchZs []))) :=
  ⟨fun perm z => length_subsampleSeqs perm z,
    collectZs_length_le T perms batchZs [] hb (by simp), rfl⟩

/-- C9 witness: a one-batch run with one task per slice. -/
theorem C9_subsample_and_cap_witness :
    (∀ b ∈ [[[[(5 : ℚ)]]]], ∀ row ∈ b, row.length ≤ 1) ∧
    ((∀ perm z, (subsampleSeqs perm z).length ≤ 10) ∧
      (collectZs [[0]] [[[[(5 : ℚ)]]]] []).length ≤ 10000 + 10 * 1 ∧
      MetaOptimizerExplicit.log_effective_zdim true [[0]] [[[[(5 : ℚ)]]]] (fun _ => [1]) =
        some (effdim ((fun _ => [(1 : ℚ)]) (collectZs [[0]] [[[[(5 : ℚ)]]]] [])))) :=
  ⟨by decide, C9_subsample_and_cap 1 [[0]] [[[[(5 : ℚ)]]]] (fun _ => [1]) (by decide)⟩

/-- If the batch dict lacks the `y_pred` key, the sweep over the `all_x`
keys errors with the `KeyError` of its first missing key. -/
theorem readKeys_missing (x : Chan α) (ks : List String)
    (hk : "y_pred" ∈ ks) (hx : lookupChan x "y_pred" = none) :
    ∃ k ∈ ks, readKeys x ks = Except.error ("KeyError: " ++ k) := by
  induction ks with
  | nil => cases hk
  | cons k ks ih =>
    cases hl : lookupChan x k with
    | none =>
      refine ⟨k, List.mem_cons_self k ks, ?_⟩
      rw [readKeys, hl]
    | some v =>
      have hk2 : "y_pred" ∈ ks := by
        rcases List.mem_cons.mp hk with h | h
        · rw [← h, hx] at hl; cases hl
        · exact h
      obtain ⟨k2, hk2m, he⟩ := ih hk2
      refine ⟨k2, List.mem_cons_of_mem k hk2m, ?_⟩
      rw [readKeys, hl, he]

/-- C7: evaluated at a dataset without OOD channels (first batch carrying
only the `x` and `y` data channels, `has_ood = false`) with a logging
backend attached, the end-of-training diagnostic raises `KeyError: x_ood` in
its very first key sweep — the OOD keys are read before and regardless of
the `has_ood` capability check — so neither the OOD skip-without-error nor
the normal completion of the non-OOD diagnostics occurs. -/
theorem C7_ood_keyerror_on_non_ood_dataset :
    MetaOptimizerExplicit.log_loss_vs_nsamples true false 1
        (fun _ => ([], [])) (fun _ => []) [[("x", [(0 : ℚ)]), ("y", [0])]] =
      Except.error ("KeyError: " ++ "x_ood") := rfl

/-- C10: with a logging backend attached, the first loop iteration of the
explicit `log_loss_vs_nsamples` reads every `all_x` key — `y_pred` and,
irrespective of the OOD capability flag, `x_ood` and `y_ood` — directly out
of the first dataloader batch; whenever the batch lacks `y_pred` (the
dataloader only yields its declared data channels) the sweep raises a
`KeyError`, so the diagnostic never produces its loss curve. -/
theorem C10_ypred_keyerror (hasOod : Bool) (N : ℚ)
    (branchLoss : Chan ℚ → List (List ℚ) × List (List ℚ))
    (oodLoss : Chan ℚ → List (List ℚ))
    (x0 : Chan ℚ) (rest : List (Chan ℚ))
    (hx : lookupChan x0 "y_pred" = none) :
    ∃ k ∈ allXKeys,
      MetaOptimizerExplicit.log_loss_vs_nsamples true hasOod N branchLoss oodLoss (x0 :: rest)
        = Except.error ("KeyError: " ++ k) := by
  obtain ⟨k, hkm, he⟩ := readKeys_missing x0 allXKeys (by decide) hx
  refine ⟨k, hkm, ?_⟩
  unfold MetaOptimizerExplicit.log_loss_vs_nsamples
  rw [if_neg (by decide)]
  rw [llvnAccum, he]

/-- C10 witness: a first batch with all data channels (including OOD) but of
course no `y_pred` channel still key-errors. -/
theorem C10_ypred_keyerror_witness :
    lookupChan [("x", [(0 : ℚ)]), ("y", [0]), ("x_ood", [0]), ("y_ood", [0])] "y_pred" = none ∧
    ∃ k ∈ allXKeys,
      MetaOptimizerExplicit.log_loss_vs_nsamples true true 1 (fun _ => ([], [])) (fun _ => [])
          [[("x", [(0 : ℚ)]), ("y", [0]), ("x_ood", [0]), ("y_ood", [0])]]
        = Except.error ("KeyError: " ++ k) :=
  ⟨rfl, C10_ypred_keyerror true 1 (fun _ => ([], [])) (fun _ => [])
    [("x", [(0 : ℚ)]), ("y", [0]), ("x_ood", [0]), ("y_ood", [0])] [] rfl⟩

end ICL
